import Mathlib

/-!
Shallow embedding of the `core_exp_audio_ll_updates` cog package
(`update_manager.py`, `meta_path_finder.py`, `cog.py`) and proofs about it.

Python JSON-ish values are modelled by the inductive type `JVal`; Python
dicts are association lists with unique keys (first-match lookup);
exceptions are modelled by `Except` / explicit error components.  The
`packaging` library types used by the source (`Version`, `SpecifierSet`,
`InvalidSpecifier`) are modelled concretely below, faithful to that
library's documented behaviour: a `SpecifierSet` compares equal exactly
when its set of specifiers is equal, its string form is the
comma-separated join of the sorted specifier strings, and parsing splits
on commas, strips whitespace, drops empty pieces and rejects pieces that
are not an operator followed by a version.
-/

/-- A Python value as it appears in the JSON data handled by the cog:
strings, ints, lists and string-keyed dicts. -/
inductive JVal where
  | jstr (s : String)
  | jint (n : Int)
  | jlist (xs : List JVal)
  | jdict (entries : List (String × JVal))

/-- A Python dict with `JVal` values, modelled as an association list
(first occurrence of a key wins on lookup). -/
abbrev JDict := List (String × JVal)

/-- Dictionary lookup, `data[key]` returning `none` instead of `KeyError`. -/
def jlookup (data : JDict) (key : String) : Option JVal :=
  match data with
  | [] => none
  | (k, v) :: rest => if k = key then some v else jlookup rest key

/-- `destination[key] = value`: in-place update of an existing key keeps its
position, a fresh key is appended at the end (Python dict insertion order). -/
def setKey (data : JDict) (key : String) (value : JVal) : JDict :=
  match data with
  | [] => [(key, value)]
  | (k, v) :: rest =>
    if k = key then (k, value) :: rest else (k, v) :: setKey rest key value

/-- Embeds `_deep_merge` from `update_manager.py`: for each key of `source`
(in order), if the key maps to dicts on both sides, merge recursively in
place; otherwise overwrite the destination entry with (a deep copy of, which
is the identity here) the source value. -/
def deep_merge (dst : JDict) : JDict → JDict
  | [] => dst
  | (k, v) :: rest =>
    (match v, jlookup dst k with
     | JVal.jdict s, some (JVal.jdict d) =>
       deep_merge (setKey dst k (JVal.jdict (deep_merge d s))) rest
     | _, _ => deep_merge (setKey dst k v) rest)
termination_by src => sizeOf src
decreasing_by all_goals simp_wf <;> omega

/-- `isinstance(value, dict)` on a `JVal`. -/
def JVal.isDict : JVal → Bool
  | .jdict _ => true
  | _ => false

/-- The value that one `_deep_merge` step stores under key `k`: a recursive
merge when both sides hold dicts, otherwise the source value. -/
def deepMergeValue (dst : JDict) (k : String) (v : JVal) : JVal :=
  match v, jlookup dst k with
  | JVal.jdict s, some (JVal.jdict d) => JVal.jdict (deep_merge d s)
  | _, _ => v

/-! ## Python exceptions raised by `update_manager.py` -/

/-- The exception classes that the embedded `update_manager.py` code can
raise: `KeyError` (missing dict key), `TypeError` (validation failure),
`ValueError` (enum lookup failure, failed release resolution, missing list
element), `InvalidSpecifier` (from `packaging`), `IndexError`. -/
inductive PyErr where
  | keyError (key : String)
  | typeError (msg : String)
  | valueError (msg : String)
  | invalidSpecifier (msg : String)
  | indexError (msg : String)
deriving DecidableEq

/-! ## Model of `packaging.specifiers` / `packaging.version`

Only what the source relies on: constructing a `SpecifierSet` from a
string (raising `InvalidSpecifier` on bad syntax), its canonical string
form, equality, and membership tests with `prereleases=True`. -/

/-- Split a character list on a separator character; like Python
`str.split(sep)`, always returns at least one (possibly empty) piece. -/
def splitOnSep (sep : Char) : List Char → List (List Char)
  | [] => [[]]
  | c :: rest =>
    if c = sep then [] :: splitOnSep sep rest
    else
      match splitOnSep sep rest with
      | [] => [[c]]
      | g :: gs => (c :: g) :: gs

/-- Join character lists with a separator character; inverse of
`splitOnSep` on separator-free pieces. -/
def joinSep (sep : Char) : List (List Char) → List Char
  | [] => []
  | [x] => x
  | x :: xs => x ++ sep :: joinSep sep xs

/-- Python `str.strip()`: drop leading and trailing whitespace. -/
def pyStrip (l : List Char) : List Char :=
  ((l.dropWhile Char.isWhitespace).reverse.dropWhile Char.isWhitespace).reverse

/-- Split a candidate specifier into its comparison operator and the
remaining version text, as in PEP 440 specifier syntax. -/
def specOpSplit : List Char → Option (List Char × List Char)
  | '=' :: '=' :: '=' :: rest => some (['=', '=', '='], rest)
  | '=' :: '=' :: rest => some (['=', '='], rest)
  | '!' :: '=' :: rest => some (['!', '='], rest)
  | '<' :: '=' :: rest => some (['<', '='], rest)
  | '>' :: '=' :: rest => some (['>', '='], rest)
  | '~' :: '=' :: rest => some (['~', '='], rest)
  | '<' :: rest => some (['<'], rest)
  | '>' :: rest => some (['>'], rest)
  | _ => none

/-- Characters allowed in the version part of a specifier. -/
def isVersionChar (c : Char) : Bool :=
  c.isDigit || c = '.' || c = '*' || c.isLower

/-- Syntactic validity of one specifier: an operator followed by version
text that starts with a digit. -/
def validSpecifierAtomChars (l : List Char) : Bool :=
  match specOpSplit l with
  | some (_, rest) =>
    (match rest with
     | c :: _ => c.isDigit
     | [] => false) && rest.all isVersionChar
  | none => false

/-- Syntactic validity of one specifier string. -/
def validSpecifierAtom (s : String) : Bool :=
  validSpecifierAtomChars s.data

/-- Insert a string into a strictly sorted list, keeping it strictly
sorted and deduplicated. -/
def insertSorted (s : String) : List String → List String
  | [] => [s]
  | t :: rest =>
    if s < t then s :: t :: rest
    else if s = t then t :: rest
    else t :: insertSorted s rest

/-- Sort a list of strings and drop duplicates: the canonical form of a
finite set of specifier strings (`packaging` stores a `frozenset`). -/
def sortDedup : List String → List String
  | [] => []
  | s :: rest => insertSorted s (sortDedup rest)

/-- Model of `packaging.specifiers.SpecifierSet`: the canonical form of
its frozen set of specifiers — the strictly sorted list of the individual
(syntactically valid) specifier strings.  Equality of this representation
matches the library's set-based equality. -/
abbrev SpecifierSet :=
  { l : List String //
    l.Pairwise (fun a b => a < b) ∧ ∀ s ∈ l, validSpecifierAtom s = true }

/-- A PEP 440 version as far as this system needs it: numeric release
components plus an optional pre-release number (`some` = pre-release). -/
structure PyVersion where
  release : List Nat
  pre : Option Nat
deriving DecidableEq

/-- Parse a nonempty all-digit character list as a natural number. -/
def parseNatChars (l : List Char) : Option Nat :=
  if l ≠ [] && l.all Char.isDigit then
    some (l.foldl (fun n c => n * 10 + (c.toNat - 48)) 0)
  else none

/-- Parse version text `N(.N)*[tag M]` into a `PyVersion`. -/
def parseVersionChars (l : List Char) : Option PyVersion :=
  let relChars := l.takeWhile (fun c => c.isDigit || c = '.')
  let rest := l.drop relChars.length
  let comps := splitOnSep '.' relChars
  match (comps.map parseNatChars).allSome with
  | none => none
  | some release =>
    if rest = [] then some { release := release, pre := none }
    else
      let tag := rest.takeWhile Char.isLower
      let num := rest.drop tag.length
      if tag ≠ [] && num ≠ [] && num.all Char.isDigit then
        (parseNatChars num).map (fun n => { release := release, pre := some n })
      else none

/-- Compare release component lists, padding the shorter with zeros. -/
def cmpRelease : List Nat → List Nat → Ordering
  | [], [] => Ordering.eq
  | [], ys => if ys.all (fun y => y = 0) then Ordering.eq else Ordering.lt
  | xs, [] => if xs.all (fun x => x = 0) then Ordering.eq else Ordering.gt
  | x :: xs, y :: ys =>
    if x < y then Ordering.lt
    else if y < x then Ordering.gt
    else cmpRelease xs ys

/-- PEP 440 ordering on the modelled versions: release components first,
then "a pre-release sorts before its final release". -/
def cmpVersion (a b : PyVersion) : Ordering :=
  match cmpRelease a.release b.release with
  | Ordering.eq =>
    (match a.pre, b.pre with
     | none, none => Ordering.eq
     | some _, none => Ordering.lt
     | none, some _ => Ordering.gt
     | some m, some n =>
       if m < n then Ordering.lt else if n < m then Ordering.gt else Ordering.eq)
  | o => o

/-- Does one specifier admit version `v`?  Wildcard and unparsable version
texts conservatively fail. -/
def evalSpecAtom (atom : String) (v : PyVersion) : Bool :=
  match specOpSplit atom.data with
  | none => false
  | some (op, rest) =>
    match parseVersionChars rest with
    | none => false
    | some sv =>
      let c := cmpVersion v sv
      if op = ['=', '='] then c = Ordering.eq
      else if op = ['=', '=', '='] then c = Ordering.eq
      else if op = ['!', '='] then !(c = Ordering.eq)
      else if op = ['<', '='] then !(c = Ordering.gt)
      else if op = ['>', '='] then !(c = Ordering.lt)
      else if op = ['<'] then c = Ordering.lt
      else if op = ['>'] then c = Ordering.gt
      else if op = ['~', '='] then !(c = Ordering.lt)
      else false

/-- Is version `v` a pre-release (`Version.is_prerelease`)? -/
def PyVersion.isPrerelease (v : PyVersion) : Bool :=
  v.pre.isSome

/-- Does the specifier's own version text name a pre-release?  Used by
`packaging` to decide whether a set admits pre-releases by default. -/
def specAtomHasPrerelease (atom : String) : Bool :=
  match specOpSplit atom.data with
  | none => false
  | some (_, rest) =>
    match parseVersionChars rest with
    | none => false
    | some sv => sv.isPrerelease

/-- `SpecifierSet.__str__`: the comma-joined sorted specifier strings. -/
def SpecifierSet.render (ss : SpecifierSet) : String :=
  String.mk (joinSep ',' (ss.val.map String.data))

/-- `SpecifierSet.contains(version, prereleases=...)`: every member
specifier must admit the version; when `prereleases` is false a
pre-release version is rejected outright unless some member specifier
itself names a pre-release. -/
def SpecifierSet.containsVer (ss : SpecifierSet) (v : PyVersion)
    (prereleases : Bool) : Bool :=
  if !prereleases && v.isPrerelease && !(ss.val.any specAtomHasPrerelease) then
    false
  else
    ss.val.all (fun a => evalSpecAtom a v)

/-- `SpecifierSet.__init__` parsing: split the string on commas, strip each
piece, drop empty pieces, require every remaining piece to be a
syntactically valid specifier, and store the canonical (sorted,
deduplicated) set.  `none` models raising `InvalidSpecifier`. -/
def parseSpecifierSet (s : String) : Option SpecifierSet :=
  let pieces := (splitOnSep ',' s.data).map pyStrip
  let atoms := (pieces.filter (fun l => !l.isEmpty)).map (fun l => String.mk l)
  if atoms.all validSpecifierAtom then
    let canon := sortDedup atoms
    if h : canon.Pairwise (fun a b => a < b) ∧
        ∀ t ∈ canon, validSpecifierAtom t = true then
      some ⟨canon, h⟩
    else none
  else none

/-- The `SpecifierSet(raw)` constructor call as an exception-aware step. -/
def specifierSetCall (raw : String) : Except PyErr SpecifierSet :=
  match parseSpecifierSet raw with
  | some ss => Except.ok ss
  | none => Except.error (PyErr.invalidSpecifier raw)

/-! ## `ReleaseStream`, validation helpers, `ReleaseInfo` -/

/-- The `ReleaseStream` enumeration. -/
inductive ReleaseStream where
  | STABLE
  | PREVIEW
deriving DecidableEq

/-- The `.value` of each enum member. -/
def ReleaseStream.value : ReleaseStream → String
  | STABLE => "stable"
  | PREVIEW => "preview"

/-- The `ReleaseStream(raw)` enum call: an unknown value raises
`ValueError` (not `InvalidSpecifier`). -/
def releaseStreamCall (raw : String) : Except PyErr ReleaseStream :=
  if raw = "stable" then Except.ok ReleaseStream.STABLE
  else if raw = "preview" then Except.ok ReleaseStream.PREVIEW
  else Except.error (PyErr.valueError (raw ++ " is not a valid ReleaseStream"))

/-- `try body except InvalidSpecifier as exc: handler`: only an
`InvalidSpecifier` error is caught; every other exception propagates. -/
def catchInvalidSpecifier (body : Except PyErr A)
    (handler : String → Except PyErr A) : Except PyErr A :=
  match body with
  | Except.error (PyErr.invalidSpecifier m) => handler m
  | other => other

/-- The type expressions `update_manager.py` actually passes to
`_get_and_validate_key`: `str`, `List[int]` and `Dict[str, Any]` (the
`typing.Union` shapes the helper also supports are unused there). -/
inductive PyTypeExpr where
  | strT
  | listOfIntT
  | dictT
deriving DecidableEq

/-- The `isinstance(value, types)` check against the origin of the type
expression (`str`, `list`, `dict`). -/
def jIsInstance (v : JVal) (t : PyTypeExpr) : Bool :=
  match v, t with
  | JVal.jstr _, PyTypeExpr.strT => true
  | JVal.jlist _, PyTypeExpr.listOfIntT => true
  | JVal.jdict _, PyTypeExpr.dictT => true
  | _, _ => false

/-- `isinstance(item, int)`. -/
def jIsInt : JVal → Bool
  | JVal.jint _ => true
  | _ => false

/-- Embeds `_get_and_validate_key`: `data[key]` raises `KeyError` when the
key is absent; a value whose type does not match the expression's origin
raises `TypeError`; for `List[int]` every item must additionally be an
`int` (note: an empty list passes this check). -/
def _get_and_validate_key (data : JDict) (key : String)
    (value_type : PyTypeExpr) : Except PyErr JVal :=
  match jlookup data key with
  | none => Except.error (PyErr.keyError key)
  | some value =>
    if !(jIsInstance value value_type) then
      Except.error (PyErr.typeError ("unexpected type under " ++ key ++ " key"))
    else
      match value_type, value with
      | PyTypeExpr.listOfIntT, JVal.jlist items =>
        if items.all jIsInt then Except.ok value
        else
          Except.error (PyErr.typeError ("unexpected item type under " ++ key ++ " key"))
      | _, _ => Except.ok value

/-- `_get_and_validate_key(data, key, str)` with the result used as a
Python `str`. -/
def getStrKey (data : JDict) (key : String) : Except PyErr String :=
  match _get_and_validate_key data key PyTypeExpr.strT with
  | Except.error e => Except.error e
  | Except.ok (JVal.jstr s) => Except.ok s
  | Except.ok _ => Except.error (PyErr.typeError key)

/-- Extract the `Int` items of a validated list. -/
def intItems : List JVal → List Int
  | [] => []
  | JVal.jint n :: rest => n :: intItems rest
  | _ :: rest => intItems rest

/-- `tuple(_get_and_validate_key(data, key, List[int]))`. -/
def getIntListKey (data : JDict) (key : String) : Except PyErr (List Int) :=
  match _get_and_validate_key data key PyTypeExpr.listOfIntT with
  | Except.error e => Except.error e
  | Except.ok (JVal.jlist items) => Except.ok (intItems items)
  | Except.ok _ => Except.error (PyErr.typeError key)

/-- `_get_and_validate_key(data, key, Dict[str, Any])`. -/
def getDictKey (data : JDict) (key : String) : Except PyErr JDict :=
  match _get_and_validate_key data key PyTypeExpr.dictT with
  | Except.error e => Except.error e
  | Except.ok (JVal.jdict entries) => Except.ok entries
  | Except.ok _ => Except.error (PyErr.typeError key)

/-- The `ReleaseInfo` dataclass. -/
structure ReleaseInfo where
  release_name : String
  jar_version : String
  jar_url : String
  yt_plugin_version : String
  java_versions : List Int
  red_version : SpecifierSet
  release_stream : ReleaseStream
  application_yml_overrides : JDict

/-- Embeds `ReleaseInfo.from_json_dict`, keeping the source's evaluation
order: `release_stream` (enum call wrapped in `except InvalidSpecifier`),
`red_version` (specifier call wrapped the same way), `jar_version`, then
the remaining keys in constructor-argument order. -/
def ReleaseInfo.from_json_dict (data : JDict) : Except PyErr ReleaseInfo := do
  let raw_release_stream ← getStrKey data "release_stream"
  let release_stream ← catchInvalidSpecifier (releaseStreamCall raw_release_stream)
    (fun _ => Except.error (PyErr.typeError
      ("expected a valid release stream under release_stream key, got "
        ++ raw_release_stream ++ " instead")))
  let raw_red_version ← getStrKey data "red_version"
  let red_version ← catchInvalidSpecifier (specifierSetCall raw_red_version)
    (fun _ => Except.error (PyErr.typeError
      ("expected a specifier set under red_version key, got "
        ++ raw_red_version ++ " instead")))
  let raw_jar_version ← getStrKey data "jar_version"
  let release_name ← getStrKey data "release_name"
  let jar_url ← getStrKey data "jar_url"
  let yt_plugin_version ← getStrKey data "yt_plugin_version"
  let java_versions ← getIntListKey data "java_versions"
  let application_yml_overrides ← getDictKey data "application_yml_overrides"
  Except.ok
    { release_name := release_name
      jar_version := raw_jar_version
      jar_url := jar_url
      yt_plugin_version := yt_plugin_version
      java_versions := java_versions
      red_version := red_version
      release_stream := release_stream
      application_yml_overrides := application_yml_overrides }

/-- Embeds `ReleaseInfo.as_json_dict`. -/
def ReleaseInfo.as_json_dict (x : ReleaseInfo) : JDict :=
  [("release_name", JVal.jstr x.release_name),
   ("jar_version", JVal.jstr x.jar_version),
   ("jar_url", JVal.jstr x.jar_url),
   ("yt_plugin_version", JVal.jstr x.yt_plugin_version),
   ("java_versions", JVal.jlist (x.java_versions.map JVal.jint)),
   ("red_version", JVal.jstr x.red_version.render),
   ("release_stream", JVal.jstr x.release_stream.value),
   ("application_yml_overrides", JVal.jdict x.application_yml_overrides)]

/-! ## `ReleaseIndex` and release resolution -/

/-- `ReleaseIndex`: the ordered list of releases. -/
structure ReleaseIndex where
  releases : List ReleaseInfo

/-- The eligible-stream tuple built at the top of `get_latest_release`:
`(release_stream,)`, extended with `STABLE` when the requested stream is
`PREVIEW`. -/
def eligibleStreams (release_stream : ReleaseStream) : List ReleaseStream :=
  let streams := [release_stream]
  if release_stream = ReleaseStream.PREVIEW then streams ++ [ReleaseStream.STABLE]
  else streams

/-- The scan loop of `get_latest_release`: skip releases outside the
eligible streams, skip releases whose constraint rejects the given host
version (with `prereleases=True`), return the first survivor, raise
`ValueError` when the list is exhausted. -/
def getLatestReleaseLoop (streams : List ReleaseStream)
    (red_version : Option PyVersion) : List ReleaseInfo → Except PyErr ReleaseInfo
  | [] =>
    Except.error (PyErr.valueError "could not find any release matching the given conditions")
  | release :: rest =>
    if !(streams.contains release.release_stream) then
      getLatestReleaseLoop streams red_version rest
    else if (match red_version with
             | some v => !(release.red_version.containsVer v true)
             | none => false) then
      getLatestReleaseLoop streams red_version rest
    else Except.ok release

/-- Embeds `ReleaseIndex.get_latest_release`. -/
def ReleaseIndex.get_latest_release (index : ReleaseIndex)
    (release_stream : ReleaseStream) (red_version : Option PyVersion) :
    Except PyErr ReleaseInfo :=
  getLatestReleaseLoop (eligibleStreams release_stream) red_version index.releases

/-- Stated from the spec wording, for comparison with the code: the
eligible stream set of resolution step 1. -/
def specStreamSet (stream : ReleaseStream) : List ReleaseStream :=
  if stream = ReleaseStream.PREVIEW then [ReleaseStream.PREVIEW, ReleaseStream.STABLE]
  else [stream]

/-- Stated from the spec wording, for comparison with the code: a release
survives the scan when its stream is eligible and, if a host version is
given, its `red_version` constraint contains that version with
pre-releases treated as matchable. -/
def specSurvives (stream : ReleaseStream) (red_version : Option PyVersion)
    (r : ReleaseInfo) : Bool :=
  (specStreamSet stream).contains r.release_stream &&
    (match red_version with
     | some v => r.red_version.containsVer v true
     | none => true)

/-! ## Target-module surfaces and the `UpdateManager` patch functions -/

/-- The surface of `redbot.cogs.audio.manager` that the patching touches:
the `ServerManager.LAVALINK_DOWNLOAD_URL` class attribute. -/
structure ManagerModule where
  ServerManager_LAVALINK_DOWNLOAD_URL : String

/-- The `ReleaseInfo` dataclass field `application_yml_overrides` together
with the rest of the selection is consulted at call time by the installed
wrapper, so a config-generation function is modelled by its call behaviour
(parameterised by the release selection the manager holds when it is
invoked) plus whether it carries the wrapper marker
(`getattr(f, "func", None) is _generate_server_config`). -/
structure GenConfigFn where
  run : Option ReleaseInfo → JDict → JDict
  hasMarker : Bool

/-- The surface of `redbot.cogs.audio.managed_node.ll_server_config`. -/
structure LLServerConfigModule where
  generate_server_config : GenConfigFn

/-- The surface of `redbot.cogs.audio.managed_node.version_pins`;
`from_version_output` is the module's own version parser (opaque here). -/
structure VersionPinsModule where
  from_version_output : String → String
  JAR_VERSION : String
  YT_PLUGIN_VERSION : String
  SUPPORTED_JAVA_VERSIONS : List Int
  LATEST_SUPPORTED_JAVA_VERSION : Int
  OLDER_SUPPORTED_JAVA_VERSIONS : List Int

/-- Embeds `_generate_ll_version_line` (bytes modelled as a string). -/
def _generate_ll_version_line (raw_version : String) : String :=
  "Version: " ++ raw_version

/-- Embeds the module-level `_generate_server_config`: run the original
function, then — only if a release is selected at call time — merge the
release's `application_yml_overrides` into the result and re-merge the
caller's `config_data` on top. -/
def _generate_server_config (orig_func : JDict → JDict)
    (release_info : Option ReleaseInfo) (config_data : JDict) : JDict :=
  let data := orig_func config_data
  match release_info with
  | none => data
  | some ri => deep_merge (deep_merge data ri.application_yml_overrides) config_data

/-- Embeds `UpdateManager.update_manager`: no-op without a selection,
otherwise overwrite the download URL. -/
def UpdateManager.update_manager (release_info : Option ReleaseInfo)
    (module : ManagerModule) : ManagerModule :=
  match release_info with
  | none => module
  | some ri => { module with ServerManager_LAVALINK_DOWNLOAD_URL := ri.jar_url }

/-- Embeds `UpdateManager.update_ll_server_config`: no-op without a
selection; skip if the module's current function already carries the
marker; otherwise install the wrapper (which consults the release
selection at call time) and tag it. -/
def UpdateManager.update_ll_server_config (release_info : Option ReleaseInfo)
    (module : LLServerConfigModule) : LLServerConfigModule :=
  match release_info with
  | none => module
  | some _ =>
    let orig_func := module.generate_server_config
    if orig_func.hasMarker then module
    else
      { module with
        generate_server_config :=
          { run := fun ri config_data =>
              _generate_server_config (orig_func.run ri) ri config_data
            hasMarker := true } }

/-- Embeds `UpdateManager.update_version_pins`: no-op without a selection;
otherwise rewrite the five pin symbols in source order.  The read
`java_versions[-1]` raises `IndexError` on an empty tuple, after the first
three symbols were already written; the result pairs the final module
state with the raised error, if any. -/
def UpdateManager.update_version_pins (release_info : Option ReleaseInfo)
    (module : VersionPinsModule) : VersionPinsModule × Option PyErr :=
  match release_info with
  | none => (module, none)
  | some ri =>
    let module := { module with
      JAR_VERSION :=
        module.from_version_output (_generate_ll_version_line ri.jar_version) }
    let module := { module with YT_PLUGIN_VERSION := ri.yt_plugin_version }
    let java_versions := ri.java_versions
    let module := { module with SUPPORTED_JAVA_VERSIONS := java_versions }
    match java_versions.getLast? with
    | none => (module, some (PyErr.indexError "tuple index out of range"))
    | some last =>
      ({ module with
          LATEST_SUPPORTED_JAVA_VERSION := last
          OLDER_SUPPORTED_JAVA_VERSIONS := java_versions.dropLast }, none)

/-! ## The meta-path finder (`meta_path_finder.py`) -/

def _AUDIO_MOD_NAME : String := "redbot.cogs.audio"

def _AUDIO_MANAGER_MOD_NAME : String := _AUDIO_MOD_NAME ++ ".manager"

def _AUDIO_MANAGED_NODE_MOD_NAME : String := _AUDIO_MOD_NAME ++ ".managed_node"

def _AUDIO_LL_SERVER_CONFIG_MOD_NAME : String :=
  _AUDIO_MANAGED_NODE_MOD_NAME ++ ".ll_server_config"

def _AUDIO_VERSION_PINS_MOD_NAME : String :=
  _AUDIO_MANAGED_NODE_MOD_NAME ++ ".version_pins"

def _AUDIO_AFFECTED_MODULES : List String :=
  [_AUDIO_MANAGER_MOD_NAME, _AUDIO_LL_SERVER_CONFIG_MOD_NAME,
   _AUDIO_VERSION_PINS_MOD_NAME]

/-- A module spec: either a real spec produced by the rest of the finder
chain, or the copy `find_spec` returns, whose loader is the wrapping
loader and whose `loader_state` holds the actual spec. -/
inductive MSpec where
  | real (name : String)
  | wrapped (actual : MSpec)

/-- Embeds `CoreExpAudioLavalinkUpdatesFinder.find_spec` together with its
effect on `sys.meta_path`.  `self` is the finder's identity inside the
meta-path list; `delegate` models `importlib.util.find_spec` as run while
the meta path is temporarily shortened (it may raise).  The result pairs
the call's outcome with the final state of `sys.meta_path`: the source
pops itself at its current index, delegates, and reinserts itself only on
the straight-line path — there is no `try`/`finally`. -/
def Finder.find_spec (self : Nat) (fullname : String)
    (delegate : List Nat → String → Except PyErr (Option MSpec))
    (meta_path : List Nat) : Except PyErr (Option MSpec) × List Nat :=
  if !(_AUDIO_AFFECTED_MODULES.contains fullname) then (Except.ok none, meta_path)
  else
    match meta_path.indexOf? self with
    | none => (Except.error (PyErr.valueError "finder is not in sys.meta_path"), meta_path)
    | some idx =>
      let removed := meta_path.eraseIdx idx
      match delegate removed fullname with
      | Except.error e => (Except.error e, removed)
      | Except.ok actual_spec =>
        let restored := removed.insertIdx idx self
        match actual_spec with
        | none => (Except.ok none, restored)
        | some actual => (Except.ok (some (MSpec.wrapped actual)), restored)

/-! ## The operator update flow (`cog.py`, `update_command` lines 140-150) -/

/-- Exception classes for the cog-level flow: `exc` is an `Exception`
subclass (caught by `except Exception`), `baseExc` a
`BaseException`-only class such as `asyncio.CancelledError` or
`KeyboardInterrupt`, which `except Exception` does not catch. -/
inductive PyExc where
  | exc (msg : String)
  | baseExc (msg : String)
deriving DecidableEq

/-- Observable outcome of the tail of `update_command`: the manager's
in-memory selection, the persisted config value, and the exception that
propagated out, if any. -/
structure UpdateFlowResult where
  release_info : Option ReleaseInfo
  stored : Option JDict
  raised : Option PyExc

/-- Embeds lines 140-150 of `cog.py` (the part of `update_command` after
the operator confirmed): remember the old selection, tentatively assign
the new one, run the restart/reload sequence (`update_node`, whose
outcome is passed in), roll the selection back and re-raise when an
`Exception` is caught, and persist the new selection only after a
successful run.  A `BaseException`-only failure is not caught, so it
propagates with the tentative selection still in place. -/
def update_command_finish (old_release_info : Option ReleaseInfo)
    (stored : Option JDict) (latest_compatible : ReleaseInfo)
    (update_node_outcome : Option PyExc) : UpdateFlowResult :=
  let tentative := some latest_compatible
  match update_node_outcome with
  | some (PyExc.exc m) =>
    { release_info := old_release_info, stored := stored
      raised := some (PyExc.exc m) }
  | some (PyExc.baseExc m) =>
    { release_info := tentative, stored := stored
      raised := some (PyExc.baseExc m) }
  | none =>
    { release_info := tentative
      stored := some latest_compatible.as_json_dict
      raised := none }

/-! ## Concrete sample values used by witnesses and counterexamples -/

/-- The specifier set parsed from `">=3.5"`. -/
def sampleSpecifier : SpecifierSet := ⟨[">=3.5"], by decide⟩

/-- A concrete release on the stable stream. -/
def sampleRelease : ReleaseInfo :=
  { release_name := "Lavalink 4.0.8"
    jar_version := "4.0.8"
    jar_url := "https://example.invalid/Lavalink.jar"
    yt_plugin_version := "1.13.3"
    java_versions := [11, 17]
    red_version := sampleSpecifier
    release_stream := ReleaseStream.STABLE
    application_yml_overrides := [("server", JVal.jdict [("port", JVal.jint 2333)])] }

/-- Build a release JSON object with the given stream string, specifier
string, Java versions and (optionally present) overrides key. -/
def mkReleaseJson (stream red : String) (javas : List Int)
    (overrides : Option JDict) : JDict :=
  [("release_stream", JVal.jstr stream),
   ("red_version", JVal.jstr red),
   ("jar_version", JVal.jstr "4.0.8"),
   ("release_name", JVal.jstr "Lavalink 4.0.8"),
   ("jar_url", JVal.jstr "https://example.invalid/Lavalink.jar"),
   ("yt_plugin_version", JVal.jstr "1.13.3"),
   ("java_versions", JVal.jlist (javas.map JVal.jint))]
  ++ (match overrides with
      | some o => [("application_yml_overrides", JVal.jdict o)]
      | none => [])

/-- The release that `from_json_dict` produces from a release object with
an empty `java_versions` list. -/
def emptyJavaRelease : ReleaseInfo :=
  { release_name := "Lavalink 4.0.8"
    jar_version := "4.0.8"
    jar_url := "https://example.invalid/Lavalink.jar"
    yt_plugin_version := "1.13.3"
    java_versions := []
    red_version := sampleSpecifier
    release_stream := ReleaseStream.STABLE
    application_yml_overrides := [] }

/-- A concrete version-pins module in its pre-patch state. -/
def pinsModule0 : VersionPinsModule :=
  { from_version_output := fun s => s
    JAR_VERSION := "3.7.11"
    YT_PLUGIN_VERSION := "1.0.0"
    SUPPORTED_JAVA_VERSIONS := [11]
    LATEST_SUPPORTED_JAVA_VERSION := 11
    OLDER_SUPPORTED_JAVA_VERSIONS := [] }

/-! ## Lemmas about dictionaries and `deep_merge` -/

theorem jlookup_setKey (data : JDict) (key k : String) (value : JVal) :
    jlookup (setKey data key value) k =
      if key = k then some value else jlookup data k := by
  induction data with
  | nil =>
    by_cases h : key = k <;> simp [setKey, jlookup, h]
  | cons hd tl ih =>
    obtain ⟨k', v'⟩ := hd
    by_cases h1 : k' = key
    · by_cases h2 : key = k
      · simp [setKey, jlookup, h1, h2]
      · have h3 : ¬ k' = k := by rw [h1]; exact h2
        simp [setKey, jlookup, h1, h2, h3]
    · by_cases h2 : k' = k
      · have h3 : ¬ key = k := fun h => h1 (h2.trans h.symm)
        have h4 : ¬ k = key := fun h => h1 (h2.trans h)
        simp [setKey, jlookup, h1, h2, h3, h4]
      · simp [setKey, jlookup, h1, h2, ih]

theorem jlookup_eq_none_of_not_mem (data : JDict) (key : String)
    (h : key ∉ data.map Prod.fst) : jlookup data key = none := by
  induction data with
  | nil => rfl
  | cons hd rest ih =>
    obtain ⟨k, v⟩ := hd
    simp only [List.map_cons, List.mem_cons, not_or] at h
    rw [jlookup, if_neg (fun e => h.1 e.symm)]
    exact ih h.2

theorem deep_merge_nil (dst : JDict) : deep_merge dst [] = dst := by
  simp [deep_merge]

theorem deep_merge_cons (dst : JDict) (k : String) (v : JVal) (rest : JDict) :
    deep_merge dst ((k, v) :: rest) =
      deep_merge (setKey dst k (deepMergeValue dst k v)) rest := by
  cases v with
  | jdict s =>
    cases hl : jlookup dst k with
    | none => simp [deep_merge, deepMergeValue, hl]
    | some w => cases w <;> simp [deep_merge, deepMergeValue, hl]
  | jstr a => simp [deep_merge, deepMergeValue]
  | jint a => simp [deep_merge, deepMergeValue]
  | jlist a => simp [deep_merge, deepMergeValue]

theorem deepMergeValue_of_not_dict (dst : JDict) (k : String) (v : JVal)
    (h : v.isDict = false) : deepMergeValue dst k v = v := by
  cases v with
  | jdict s => simp [JVal.isDict] at h
  | jstr a => rfl
  | jint a => rfl
  | jlist a => rfl

theorem jlookup_deep_merge_of_none (src : JDict) (key : String) :
    ∀ dst : JDict, jlookup src key = none →
      jlookup (deep_merge dst src) key = jlookup dst key := by
  induction src with
  | nil => intro dst _; rw [deep_merge_nil]
  | cons hd rest ih =>
    intro dst h
    obtain ⟨k, v⟩ := hd
    rw [jlookup] at h
    by_cases hk : k = key
    · rw [if_pos hk] at h; exact absurd h (by simp)
    · rw [if_neg hk] at h
      rw [deep_merge_cons, ih _ h, jlookup_setKey, if_neg hk]

theorem jlookup_deep_merge_of_some_prim (src : JDict) (key : String) (v : JVal) :
    ∀ dst : JDict, (src.map Prod.fst).Nodup →
      jlookup src key = some v → v.isDict = false →
      jlookup (deep_merge dst src) key = some v := by
  induction src with
  | nil => intro dst _ h _; exact absurd h (by simp [jlookup])
  | cons hd rest ih =>
    intro dst hnd h hv
    obtain ⟨k, w⟩ := hd
    rw [List.map_cons, List.nodup_cons] at hnd
    rw [jlookup] at h
    by_cases hk : k = key
    · rw [if_pos hk] at h
      have hw : w = v := by injection h
      have hnone : jlookup rest key = none :=
        jlookup_eq_none_of_not_mem _ _ (hk ▸ hnd.1)
      rw [deep_merge_cons, jlookup_deep_merge_of_none _ _ _ hnone,
        jlookup_setKey, if_pos hk, hw,
        deepMergeValue_of_not_dict _ _ _ (hw ▸ hv)]
    · rw [if_neg hk] at h
      rw [deep_merge_cons]
      exact ih _ hnd.2 h hv

theorem jlookup_deep_merge_of_some (src : JDict) (key : String) (v : JVal) :
    ∀ dst : JDict, (src.map Prod.fst).Nodup →
      jlookup src key = some v →
      ∃ w, jlookup (deep_merge dst src) key = some w := by
  induction src with
  | nil => intro dst _ h; exact absurd h (by simp [jlookup])
  | cons hd rest ih =>
    intro dst hnd h
    obtain ⟨k, w⟩ := hd
    rw [List.map_cons, List.nodup_cons] at hnd
    rw [jlookup] at h
    by_cases hk : k = key
    · have hnone : jlookup rest key = none :=
        jlookup_eq_none_of_not_mem _ _ (hk ▸ hnd.1)
      refine ⟨deepMergeValue dst k w, ?_⟩
      rw [deep_merge_cons, jlookup_deep_merge_of_none _ _ _ hnone,
        jlookup_setKey, if_pos hk]
    · rw [if_neg hk] at h
      rw [deep_merge_cons]
      exact ih _ hnd.2 h

/-- C3: the patched config-generation function merges the release
overrides into the base produced by the original generator and then
merges the caller input on top: a (non-dict) key set in the caller input
wins over the release overrides, a key set only in the release overrides
survives into the result, a base key touched by neither layer is
unchanged; concretely, with base `{a:1, b:{c:1}}`, release overrides
`{b:{c:2, d:3}}` and caller input `{b:{c:9}}` the result is
`{a:1, b:{c:9, d:3}}`, so `b.c = 9`, `b.d = 3`, `a = 1`. -/
theorem C3_generate_server_config_precedence
    (orig_func : JDict → JDict) (r : ReleaseInfo) (config_data : JDict)
    (key : String)
    (hcfg : (config_data.map Prod.fst).Nodup)
    (hov : (r.application_yml_overrides.map Prod.fst).Nodup) :
    (∀ v, jlookup config_data key = some v → v.isDict = false →
      jlookup (_generate_server_config orig_func (some r) config_data) key = some v)
    ∧ (jlookup config_data key = none →
      ∀ v, jlookup r.application_yml_overrides key = some v →
        ∃ w, jlookup (_generate_server_config orig_func (some r) config_data) key
          = some w)
    ∧ (jlookup config_data key = none →
      jlookup r.application_yml_overrides key = none →
      jlookup (_generate_server_config orig_func (some r) config_data) key =
        jlookup (orig_func config_data) key)
    ∧ _generate_server_config
        (fun _ => [("a", JVal.jint 1), ("b", JVal.jdict [("c", JVal.jint 1)])])
        (some { sampleRelease with
          application_yml_overrides :=
            [("b", JVal.jdict [("c", JVal.jint 2), ("d", JVal.jint 3)])] })
        [("b", JVal.jdict [("c", JVal.jint 9)])]
      = [("a", JVal.jint 1),
         ("b", JVal.jdict [("c", JVal.jint 9), ("d", JVal.jint 3)])] := by
  refine ⟨?_, ?_, ?_, ?_⟩
  · intro v hv hprim
    exact jlookup_deep_merge_of_some_prim _ _ _ _ hcfg hv hprim
  · intro hnone v hv
    unfold _generate_server_config
    rw [jlookup_deep_merge_of_none _ _ _ hnone]
    exact jlookup_deep_merge_of_some _ _ _ _ hov hv
  · intro hc ho
    unfold _generate_server_config
    rw [jlookup_deep_merge_of_none _ _ _ hc,
      jlookup_deep_merge_of_none _ _ _ ho]
  · simp [_generate_server_config, deep_merge_cons, deep_merge_nil,
      deepMergeValue, setKey, jlookup]

theorem C3_generate_server_config_precedence_witness :
    _generate_server_config
        (fun _ => [("a", JVal.jint 1), ("b", JVal.jdict [("c", JVal.jint 1)])])
        (some { sampleRelease with
          application_yml_overrides :=
            [("b", JVal.jdict [("c", JVal.jint 2), ("d", JVal.jint 3)])] })
        [("b", JVal.jdict [("c", JVal.jint 9)])]
      = [("a", JVal.jint 1),
         ("b", JVal.jdict [("c", JVal.jint 9), ("d", JVal.jint 3)])] :=
  (C3_generate_server_config_precedence
      (fun _ => [("a", JVal.jint 1), ("b", JVal.jdict [("c", JVal.jint 1)])])
      { sampleRelease with
        application_yml_overrides :=
          [("b", JVal.jdict [("c", JVal.jint 2), ("d", JVal.jint 3)])] }
      [("b", JVal.jdict [("c", JVal.jint 9)])]
      "b" (by decide) (by decide)).2.2.2

/-- C9: applying `update_ll_server_config` twice with a selected release
leaves the module exactly as one application does — the second call sees
the marker on the installed wrapper and returns without touching the
module, so the overrides are merged once per invocation, never twice. -/
theorem C9_update_ll_server_config_idempotent (r : ReleaseInfo)
    (module : LLServerConfigModule) :
    UpdateManager.update_ll_server_config (some r)
        (UpdateManager.update_ll_server_config (some r) module) =
      UpdateManager.update_ll_server_config (some r) module := by
  unfold UpdateManager.update_ll_server_config
  cases hm : module.generate_server_config.hasMarker <;> simp [hm]

/-- C10: with no release selected the three patch functions return their
target module unchanged (raising nothing), the underlying merge wrapper
body returns exactly the original function's output, and a wrapper that
was installed earlier (while some release was selected) also returns the
original function's output when invoked at a moment the selection is
`none`, because it consults the selection at call time. -/
theorem C10_noop_when_unselected (mm : ManagerModule)
    (lm : LLServerConfigModule) (vm : VersionPinsModule)
    (orig_func : JDict → JDict) (config_data : JDict) :
    UpdateManager.update_manager none mm = mm
    ∧ UpdateManager.update_ll_server_config none lm = lm
    ∧ UpdateManager.update_version_pins none vm = (vm, none)
    ∧ _generate_server_config orig_func none config_data = orig_func config_data
    ∧ (lm.generate_server_config.hasMarker = false →
      ∀ r : ReleaseInfo,
        (UpdateManager.update_ll_server_config (some r) lm).generate_server_config.run
            none config_data
          = lm.generate_server_config.run none config_data) := by
  refine ⟨rfl, rfl, rfl, rfl, ?_⟩
  intro hm r
  simp [UpdateManager.update_ll_server_config, hm, _generate_server_config]

theorem C10_noop_when_unselected_witness :
    (UpdateManager.update_ll_server_config (some sampleRelease)
        { generate_server_config :=
          { run := fun _ config_data => config_data, hasMarker := false } }
      ).generate_server_config.run none [("x", JVal.jint 7)]
      = [("x", JVal.jint 7)] :=
  (C10_noop_when_unselected
      { ServerManager_LAVALINK_DOWNLOAD_URL := "u" }
      { generate_server_config :=
        { run := fun _ config_data => config_data, hasMarker := false } }
      { from_version_output := fun s => s, JAR_VERSION := "j"
        YT_PLUGIN_VERSION := "y", SUPPORTED_JAVA_VERSIONS := []
        LATEST_SUPPORTED_JAVA_VERSION := 0, OLDER_SUPPORTED_JAVA_VERSIONS := [] }
      (fun d => d) [("x", JVal.jint 7)]).2.2.2.2 rfl sampleRelease

/-- C4 counterexample: `update_node` failing with a `BaseException`-only
exception (here modelling `asyncio.CancelledError`) propagates out of
`update_command`, yet the in-memory selection is left at the tentative
new release instead of being restored to its previous value (`none`),
because the rollback handler is `except Exception`. -/
theorem C4_rollback_counterexample :
    (update_command_finish none none sampleRelease
        (some (PyExc.baseExc "CancelledError"))).raised
      = some (PyExc.baseExc "CancelledError")
    ∧ (update_command_finish none none sampleRelease
        (some (PyExc.baseExc "CancelledError"))).release_info
      = some sampleRelease := ⟨rfl, rfl⟩

/-- C4 (amended): if the restart/reload sequence fails with an exception
of class `Exception`, the in-memory selection is restored to its previous
value before the exception propagates and nothing is persisted; a
`BaseException`-only failure propagates without rollback but equally
without persisting; the new selection is persisted exactly when the
sequence completes without exception. -/
theorem C4_update_flow_rollback (old_release_info : Option ReleaseInfo)
    (stored : Option JDict) (latest_compatible : ReleaseInfo) :
    (∀ m, update_command_finish old_release_info stored latest_compatible
        (some (PyExc.exc m))
      = { release_info := old_release_info, stored := stored
          raised := some (PyExc.exc m) })
    ∧ (∀ m, update_command_finish old_release_info stored latest_compatible
        (some (PyExc.baseExc m))
      = { release_info := some latest_compatible, stored := stored
          raised := some (PyExc.baseExc m) })
    ∧ update_command_finish old_release_info stored latest_compatible none
      = { release_info := some latest_compatible
          stored := some latest_compatible.as_json_dict
          raised := none } :=
  ⟨fun _ => rfl, fun _ => rfl, rfl⟩

/-- C1 counterexample: with the finder (id 0) at index 0 of the meta path
`[0, 1]` and a delegated lookup that raises, `find_spec` propagates the
exception while the final meta path is `[1]` — the finder has not been
reinserted and is absent from the search order. -/
theorem C1_finder_reinsert_counterexample :
    (Finder.find_spec 0 _AUDIO_MANAGER_MOD_NAME
        (fun _ _ => Except.error (PyErr.valueError "lookup failed")) [0, 1]).2
      = [1]
    ∧ (0 : Nat) ∉ (Finder.find_spec 0 _AUDIO_MANAGER_MOD_NAME
        (fun _ _ => Except.error (PyErr.valueError "lookup failed")) [0, 1]).2 := by
  refine ⟨rfl, ?_⟩
  intro h
  rw [show (Finder.find_spec 0 _AUDIO_MANAGER_MOD_NAME
      (fun _ _ => Except.error (PyErr.valueError "lookup failed")) [0, 1]).2
      = [1] from rfl] at h
  simp at h

/-- C1 (amended): for a targeted module name, `find_spec` pops the finder
at its current index and reinserts it only when the delegated lookup
returns normally; when the delegated lookup raises, the exception
propagates with the meta path left equal to the original with the finder
popped, so the finder is not reinserted. -/
theorem C1_find_spec_exception_behavior (self : Nat) (fullname : String)
    (delegate : List Nat → String → Except PyErr (Option MSpec))
    (meta_path : List Nat) (idx : Nat)
    (hname : _AUDIO_AFFECTED_MODULES.contains fullname = true)
    (hidx : meta_path.indexOf? self = some idx) :
    (∀ e, delegate (meta_path.eraseIdx idx) fullname = Except.error e →
      Finder.find_spec self fullname delegate meta_path
        = (Except.error e, meta_path.eraseIdx idx))
    ∧ (∀ res, delegate (meta_path.eraseIdx idx) fullname = Except.ok res →
      (Finder.find_spec self fullname delegate meta_path).2
        = (meta_path.eraseIdx idx).insertIdx idx self) := by
  have hmem : fullname ∈ _AUDIO_AFFECTED_MODULES := by simpa using hname
  constructor
  · intro e he
    simp [Finder.find_spec, hname, hidx, he, hmem]
  · intro res hres
    cases res <;> simp [Finder.find_spec, hname, hidx, hres, hmem]

theorem C1_find_spec_exception_behavior_witness :
    Finder.find_spec 0 _AUDIO_MANAGER_MOD_NAME
        (fun _ _ => Except.error (PyErr.valueError "lookup failed")) [0, 1]
      = (Except.error (PyErr.valueError "lookup failed"), [1])
    ∧ (Finder.find_spec 0 _AUDIO_VERSION_PINS_MOD_NAME
        (fun _ _ => Except.ok none) [0, 1]).2
      = [0, 1] := by
  constructor
  · exact (C1_find_spec_exception_behavior 0 _AUDIO_MANAGER_MOD_NAME
      (fun _ _ => Except.error (PyErr.valueError "lookup failed")) [0, 1] 0
      (by decide) (by decide)).1 (PyErr.valueError "lookup failed") rfl
  · have h := (C1_find_spec_exception_behavior 0 _AUDIO_VERSION_PINS_MOD_NAME
      (fun _ _ => Except.ok none) [0, 1] 0 (by decide) (by decide)).2 none rfl
    simpa using h

theorem eligibleStreams_eq_specStreamSet (release_stream : ReleaseStream) :
    eligibleStreams release_stream = specStreamSet release_stream := by
  cases release_stream <;> rfl

/-- C2: `get_latest_release` returns the first release in index order that
survives the spec's filter — stream inside the eligible set (`{S}`, plus
`STABLE` when `S` is `PREVIEW`; never `PREVIEW` when `S` is `STABLE`)
and, when a host version is supplied, a `red_version` constraint that
contains it with pre-releases treated as matchable — and raises the
"no matching release" `ValueError` when no release survives, in
particular on an empty index. -/
theorem C2_get_latest_release_first_survivor (index : ReleaseIndex)
    (release_stream : ReleaseStream) (red_version : Option PyVersion) :
    index.get_latest_release release_stream red_version
      = match index.releases.find? (specSurvives release_stream red_version) with
        | some r => Except.ok r
        | none => Except.error (PyErr.valueError
            "could not find any release matching the given conditions") := by
  obtain ⟨rels⟩ := index
  show getLatestReleaseLoop (eligibleStreams release_stream) red_version rels = _
  rw [eligibleStreams_eq_specStreamSet]
  induction rels with
  | nil => rfl
  | cons r rest ih =>
    cases hs : (specStreamSet release_stream).contains r.release_stream with
    | false =>
      have hnm : r.release_stream ∉ specStreamSet release_stream := by
        simpa using hs
      have hns : specSurvives release_stream red_version r = false := by
        simp [specSurvives, hnm]
      rw [List.find?_cons_of_neg _ (by simp [hns])]
      simpa [getLatestReleaseLoop, hnm] using ih
    | true =>
      have hm : r.release_stream ∈ specStreamSet release_stream := by
        simpa using hs
      cases red_version with
      | none =>
        rw [List.find?_cons_of_pos _ (by simp [specSurvives, hm])]
        simp [getLatestReleaseLoop, hm]
      | some v =>
        cases hc : r.red_version.containsVer v true with
        | false =>
          have hns : specSurvives release_stream (some v) r = false := by
            simp [specSurvives, hc]
          rw [List.find?_cons_of_neg _ (by simp [hns])]
          simpa [getLatestReleaseLoop, hm, hc] using ih
        | true =>
          rw [List.find?_cons_of_pos _ (by simp [specSurvives, hm, hc])]
          simp [getLatestReleaseLoop, hm, hc]

/-! ## Lemmas towards the specifier-set round trip -/

theorem map_eq_self_of_eq {α : Type} (f : α → α) (l : List α)
    (h : ∀ x ∈ l, f x = x) : l.map f = l := by
  induction l with
  | nil => rfl
  | cons a rest ih =>
    rw [List.map_cons, h a (by simp), ih (fun x hx => h x (by simp [hx]))]

theorem splitOnSep_of_not_mem (sep : Char) (l : List Char) (h : sep ∉ l) :
    splitOnSep sep l = [l] := by
  induction l with
  | nil => rfl
  | cons c rest ih =>
    simp only [List.mem_cons, not_or] at h
    have hc : ¬ c = sep := fun e => h.1 e.symm
    simp only [splitOnSep, if_neg hc, ih h.2]

theorem splitOnSep_append (sep : Char) (x r : List Char) (h : sep ∉ x) :
    splitOnSep sep (x ++ sep :: r) = x :: splitOnSep sep r := by
  induction x with
  | nil => simp [splitOnSep]
  | cons c xs ih =>
    simp only [List.mem_cons, not_or] at h
    have hc : ¬ c = sep := fun e => h.1 e.symm
    simp only [List.cons_append, splitOnSep, if_neg hc]
    rw [show xs.append (sep :: r) = xs ++ sep :: r from rfl, ih h.2]

theorem splitOnSep_joinSep (sep : Char) (ps : List (List Char))
    (h : ∀ p ∈ ps, sep ∉ p) (hne : ps ≠ []) :
    splitOnSep sep (joinSep sep ps) = ps := by
  induction ps with
  | nil => exact absurd rfl hne
  | cons x xs ih =>
    cases xs with
    | nil => exact splitOnSep_of_not_mem sep x (h x (by simp))
    | cons y ys =>
      rw [show joinSep sep (x :: y :: ys) = x ++ sep :: joinSep sep (y :: ys) from rfl,
        splitOnSep_append sep x _ (h x (by simp)),
        ih (fun p hp => h p (by simp [hp])) (by simp)]

theorem dropWhile_eq_self_of_false {α : Type} (p : α → Bool) (l : List α)
    (h : ∀ x ∈ l, p x = false) : l.dropWhile p = l := by
  cases l with
  | nil => rfl
  | cons a rest => simp [List.dropWhile_cons, h a (by simp)]

theorem pyStrip_of_no_whitespace (l : List Char)
    (h : ∀ c ∈ l, c.isWhitespace = false) : pyStrip l = l := by
  unfold pyStrip
  rw [dropWhile_eq_self_of_false _ _ h,
    dropWhile_eq_self_of_false _ _ (fun c hc => h c (List.mem_reverse.mp hc)),
    List.reverse_reverse]

theorem isVersionChar_props (c : Char) (h : isVersionChar c = true) :
    ¬ c = ',' ∧ c.isWhitespace = false := by
  constructor
  · rintro rfl
    exact absurd h (by decide)
  · cases hw : c.isWhitespace
    · rfl
    · exfalso
      have hcs : ((c = ' ' ∨ c = '\t') ∨ c = '\x0d') ∨ c = '\n' := by
        simpa [Char.isWhitespace] using hw
      rcases hcs with ((rfl | rfl) | rfl) | rfl <;> exact absurd h (by decide)

theorem specOpSplit_some (l op rest : List Char)
    (h : specOpSplit l = some (op, rest)) :
    l = op ++ rest ∧ op ≠ [] ∧
      ∀ c ∈ op, c = '=' ∨ c = '!' ∨ c = '<' ∨ c = '>' ∨ c = '~' := by
  unfold specOpSplit at h
  split at h <;>
    first
      | exact Option.noConfusion h
      | (injection h with h1
         injection h1 with hop hrest
         subst hop
         subst hrest
         exact ⟨rfl, by decide, by decide⟩)

theorem validAtomChars_props (l : List Char)
    (h : validSpecifierAtomChars l = true) :
    l ≠ [] ∧ ∀ c ∈ l, ¬ c = ',' ∧ c.isWhitespace = false := by
  unfold validSpecifierAtomChars at h
  cases hop : specOpSplit l with
  | none => rw [hop] at h; exact absurd h (by simp)
  | some pr =>
    obtain ⟨op, rest⟩ := pr
    rw [hop, Bool.and_eq_true] at h
    obtain ⟨hl, hopne, hops⟩ := specOpSplit_some l op rest hop
    have hall : ∀ c ∈ rest, isVersionChar c = true := List.all_eq_true.mp h.2
    subst hl
    refine ⟨by simp [hopne], ?_⟩
    intro c hc
    rcases List.mem_append.mp hc with hcop | hcrest
    · rcases hops c hcop with rfl | rfl | rfl | rfl | rfl <;>
        exact ⟨by decide, by decide⟩
    · exact isVersionChar_props c (hall c hcrest)

theorem insertSorted_pairwise_cons (s : String) (l : List String)
    (h : (s :: l).Pairwise (fun a b => a < b)) : insertSorted s l = s :: l := by
  cases l with
  | nil => rfl
  | cons t r =>
    have hst : s < t := (List.pairwise_cons.mp h).1 t (by simp)
    rw [insertSorted, if_pos hst]

theorem sortDedup_of_pairwise (l : List String)
    (h : l.Pairwise (fun a b => a < b)) : sortDedup l = l := by
  induction l with
  | nil => rfl
  | cons s r ih =>
    rw [sortDedup, ih (List.pairwise_cons.mp h).2]
    exact insertSorted_pairwise_cons s r h

theorem parseSpecifierSet_render (ss : SpecifierSet) :
    parseSpecifierSet ss.render = some ss := by
  obtain ⟨atoms, hpw, hval⟩ := ss
  cases atoms with
  | nil => rfl
  | cons a rest =>
    have hprops : ∀ s ∈ a :: rest,
        s.data ≠ [] ∧ ∀ c ∈ s.data, ¬ c = ',' ∧ c.isWhitespace = false :=
      fun s hs => validAtomChars_props s.data (hval s hs)
    have hsplit : splitOnSep ',' (joinSep ',' ((a :: rest).map String.data))
        = (a :: rest).map String.data := by
      refine splitOnSep_joinSep ',' _ ?_ (by simp)
      intro p hp
      obtain ⟨s, hs, rfl⟩ := List.mem_map.mp hp
      intro hmem
      exact ((hprops s hs).2 ',' hmem).1 rfl
    have hstrip : ((a :: rest).map String.data).map pyStrip
        = (a :: rest).map String.data := by
      refine map_eq_self_of_eq _ _ ?_
      intro p hp
      obtain ⟨s, hs, rfl⟩ := List.mem_map.mp hp
      exact pyStrip_of_no_whitespace _ (fun c hc => ((hprops s hs).2 c hc).2)
    have hfilter : ((a :: rest).map String.data).filter (fun l => !l.isEmpty)
        = (a :: rest).map String.data := by
      refine List.filter_eq_self.mpr ?_
      intro p hp
      obtain ⟨s, hs, rfl⟩ := List.mem_map.mp hp
      simpa using (hprops s hs).1
    have hmk : ((a :: rest).map String.data).map (fun l => String.mk l)
        = a :: rest := by
      rw [List.map_map]
      exact map_eq_self_of_eq _ _ (fun s _ => rfl)
    have hsort : sortDedup (a :: rest) = a :: rest := sortDedup_of_pairwise _ hpw
    simp only [parseSpecifierSet, SpecifierSet.render, hsplit, hstrip, hfilter,
      hmk]
    rw [if_pos (List.all_eq_true.mpr hval)]
    have hcond : (sortDedup (a :: rest)).Pairwise (fun x y => x < y) ∧
        ∀ t ∈ sortDedup (a :: rest), validSpecifierAtom t = true := by
      rw [hsort]; exact ⟨hpw, hval⟩
    rw [dif_pos hcond]
    exact congrArg some (Subtype.ext hsort)

theorem intItems_map_jint (l : List Int) : intItems (l.map JVal.jint) = l := by
  induction l with
  | nil => rfl
  | cons n rest ih => simp [intItems, ih]

theorem all_jIsInt_map_jint (l : List Int) :
    (l.map JVal.jint).all jIsInt = true := by
  induction l with
  | nil => rfl
  | cons n rest ih => simp [jIsInt, ih]

theorem specifierSetCall_render (ss : SpecifierSet) :
    specifierSetCall ss.render = Except.ok ss := by
  rw [specifierSetCall, parseSpecifierSet_render]

theorem releaseStreamCall_value (rs : ReleaseStream) :
    releaseStreamCall rs.value = Except.ok rs := by
  cases rs <;> rfl

/-- C5: serialising any `ReleaseInfo` with `as_json_dict` and parsing the
result with `from_json_dict` succeeds and reproduces the value in every
field (`release_name`, `jar_version`, `jar_url`, `yt_plugin_version`,
`java_versions`, `red_version`, `release_stream`,
`application_yml_overrides`). -/
theorem C5_release_info_round_trip (x : ReleaseInfo) :
    ReleaseInfo.from_json_dict x.as_json_dict = Except.ok x := by
  obtain ⟨n, jv, ju, yt, javas, rv, rs, ov⟩ := x
  cases rs <;>
    simp [ReleaseInfo.from_json_dict, ReleaseInfo.as_json_dict, getStrKey,
      getDictKey, getIntListKey, _get_and_validate_key, jlookup, jIsInstance,
      catchInvalidSpecifier, releaseStreamCall, ReleaseStream.value,
      specifierSetCall_render, all_jIsInt_map_jint, intItems_map_jint,
      bind, Except.bind]

/-- C6: at the failing input — a release object whose `release_stream`
holds the unknown value "nightly" — `from_json_dict` raises the enum's
bare `ValueError`, not the dedicated `TypeError` its handler would build,
because the surrounding `except InvalidSpecifier` can never match the
`ValueError` the enum call raises (the handler is dead code).  For an
invalid `red_version` specifier the typed `TypeError` is raised as the
claim states, and in both cases no partial `ReleaseInfo` is produced. -/
theorem C6_validation_error_classes :
    ReleaseInfo.from_json_dict (mkReleaseJson "nightly" ">=3.5" [11, 17] (some []))
      = Except.error (PyErr.valueError ("nightly is not a valid ReleaseStream"))
    ∧ ReleaseInfo.from_json_dict (mkReleaseJson "stable" "latest" [11, 17] (some []))
      = Except.error (PyErr.typeError
          ("expected a specifier set under red_version key, got latest instead")) :=
  ⟨rfl, rfl⟩

/-- C7 counterexample: a JSON object carrying every required key with a
well-typed value but lacking `application_yml_overrides` is rejected by
`from_json_dict` with a `KeyError` naming that key — the parse does not
succeed with an empty-dict default. -/
theorem C7_missing_overrides_counterexample :
    ReleaseInfo.from_json_dict (mkReleaseJson "stable" ">=3.5" [11, 17] none)
      = Except.error (PyErr.keyError ("application_yml_overrides")) := rfl

/-- C7 (amended): for every JSON object containing the seven required
keys with well-typed values but lacking `application_yml_overrides`,
`from_json_dict` raises `KeyError` for that key; the dataclass's
empty-dict default is never consulted by the parser. -/
theorem C7_missing_overrides_keyerror (data : JDict)
    (hstream : ∃ rs : ReleaseStream,
      jlookup data "release_stream" = some (JVal.jstr rs.value))
    (hred : ∃ ss : SpecifierSet,
      jlookup data "red_version" = some (JVal.jstr ss.render))
    (hjar : ∃ s, jlookup data "jar_version" = some (JVal.jstr s))
    (hname : ∃ s, jlookup data "release_name" = some (JVal.jstr s))
    (hurl : ∃ s, jlookup data "jar_url" = some (JVal.jstr s))
    (hyt : ∃ s, jlookup data "yt_plugin_version" = some (JVal.jstr s))
    (hjava : ∃ l : List Int,
      jlookup data "java_versions" = some (JVal.jlist (l.map JVal.jint)))
    (hmissing : jlookup data "application_yml_overrides" = none) :
    ReleaseInfo.from_json_dict data
      = Except.error (PyErr.keyError ("application_yml_overrides")) := by
  obtain ⟨rs, h1⟩ := hstream
  obtain ⟨ss, h2⟩ := hred
  obtain ⟨s3, h3⟩ := hjar
  obtain ⟨s4, h4⟩ := hname
  obtain ⟨s5, h5⟩ := hurl
  obtain ⟨s6, h6⟩ := hyt
  obtain ⟨l7, h7⟩ := hjava
  cases rs <;>
    simp [ReleaseInfo.from_json_dict, getStrKey, getDictKey, getIntListKey,
      _get_and_validate_key, h1, h2, h3, h4, h5, h6, h7, hmissing, jIsInstance,
      catchInvalidSpecifier, releaseStreamCall, ReleaseStream.value,
      specifierSetCall_render, all_jIsInt_map_jint, bind, Except.bind]

theorem C7_missing_overrides_keyerror_witness :
    ReleaseInfo.from_json_dict (mkReleaseJson "preview" ">=3.5" [17] none)
      = Except.error (PyErr.keyError ("application_yml_overrides")) :=
  C7_missing_overrides_keyerror _ ⟨ReleaseStream.PREVIEW, rfl⟩
    ⟨sampleSpecifier, rfl⟩ ⟨"4.0.8", rfl⟩ ⟨"Lavalink 4.0.8", rfl⟩
    ⟨"https://example.invalid/Lavalink.jar", rfl⟩ ⟨"1.13.3", rfl⟩
    ⟨[17], rfl⟩ rfl

/-- C8 counterexample: `from_json_dict` accepts a release object whose
`java_versions` is the empty list — the `List[int]` item check is
vacuously true on an empty list, so the "non-empty sequence" shape is not
enforced — and `update_version_pins` on that parsed release raises
`IndexError` at the `java_versions[-1]` read. -/
theorem C8_empty_java_versions_counterexample :
    ReleaseInfo.from_json_dict (mkReleaseJson "stable" ">=3.5" [] (some []))
      = Except.ok emptyJavaRelease
    ∧ emptyJavaRelease.java_versions = []
    ∧ (UpdateManager.update_version_pins (some emptyJavaRelease) pinsModule0).2
      = some (PyErr.indexError ("tuple index out of range")) :=
  ⟨rfl, rfl, rfl⟩

/-- C8 (amended): `from_json_dict` does not require `java_versions` to be
non-empty, and on a parsed release `update_version_pins` raises
`IndexError` at the last-element read exactly when that release's
`java_versions` is empty; for a non-empty `java_versions` all five pin
writes (including the last-element and all-but-last reads) succeed with
no exception. -/
theorem C8_version_pins_last_element (r : ReleaseInfo) (m : VersionPinsModule) :
    (UpdateManager.update_version_pins (some r) m).2 = none
      ↔ r.java_versions ≠ [] := by
  unfold UpdateManager.update_version_pins
  cases hl : r.java_versions.getLast? with
  | none => simp [List.getLast?_eq_none_iff.mp hl]
  | some last =>
    have hne : r.java_versions ≠ [] := by
      intro h
      rw [h] at hl
      exact Option.noConfusion hl
    simp [hl, hne]
